import Mathlib

/-!
Verification of the fluent-assertion engine of the go-testing repository.

Go strings are embedded as `List Char` (sequences of Unicode code points);
Go's builtin `len` on a string is its UTF-8 byte length, embedded as
`goLen` (the sum of the UTF-8 sizes of the characters).  The test context
`*testing.T` is embedded as a log of reported messages: `t.Error msg`
appends one message to the log and never aborts, so an assertion method is
a function from (wrapper, log) to (wrapper, log).

The assertion facade (`assert/string.go`, `assert/time.go`) and the
diagnostic formatters (`errors.go`) are translated from the source.  The
underlying value types `values.StringValue` and `types.TimeValue` are not
part of the given sources (only their callers are), so their predicate
methods are modelled from the spec, each marked `Modelled from the spec:`.
-/

namespace GoTesting

/-- A Go string: a sequence of Unicode code points. -/
abbrev GoString := List Char

/-- Go's builtin `len` on a string: its UTF-8 byte length. -/
def goLen (s : GoString) : Nat := (s.map Char.utf8Size).sum

/-- ASCII whitespace characters (the whitespace class used by the
whitespace-removal decorator and the whitespace predicates). -/
def goIsSpace (c : Char) : Bool :=
  c = ' ' || c = '\t' || c = '\n' || c = '\r' || c = '\x0b' || c = '\x0c'

/-- Embeds `strings.ToLower` (character-wise lower-casing). -/
def goToLower (s : GoString) : GoString := s.map Char.toLower

/-- Modelled from the spec: the whitespace-removal transformation
`values.RemoveSpaces` (not under the given sources) "deletes all
whitespace characters from a string". -/
def RemoveSpaces (s : GoString) : GoString := s.filter (fun c => !goIsSpace c)

/-- Embeds `values.StringValue`: the wrapped actual value together with its
ordered decorator chain.  The concrete structure is modelled from the
spec's Value Wrapper (`raw` plus an ordered sequence of decorators,
applied left-to-right). -/
structure StringValue where
  value : GoString
  decorators : List (GoString → GoString)

/-- Applies a decorator chain in attachment order. -/
def applyDecorators (ds : List (GoString → GoString)) (v : GoString) : GoString :=
  ds.foldl (fun v d => d v) v

/-- Embeds `values.NewStringValue`: wraps a raw string with an empty decorator chain. -/
def NewStringValue (v : GoString) : StringValue := ⟨v, []⟩

/-- Embeds `StringValue.AddDecorator`: returns a derived wrapper whose decorator
list grows by appending (copy-on-attach; the old wrapper is unaffected). -/
def StringValue.AddDecorator (s : StringValue) (d : GoString → GoString) : StringValue :=
  ⟨s.value, s.decorators ++ [d]⟩

/-- Modelled from the spec: `materialize()` — "the current value after
applying all attached decorators in attachment order".  This is the
`Value()` the diagnostic formatters render (the post-decorator actual
value). -/
def StringValue.Value (s : StringValue) : GoString :=
  applyDecorators s.decorators s.value

/-- Number of positions of `s` at which `sub` occurs (a match is counted
at every starting position, 0 up to and including `s.length`). -/
def occCount (s sub : GoString) : Nat :=
  match s with
  | [] => if sub.isPrefixOf ([] : GoString) then 1 else 0
  | _ :: rest => (if sub.isPrefixOf s then 1 else 0) + occCount rest sub

/-- Modelled from the spec: string equality is "exact character sequence
equality (case-sensitive unless case-fold decorator applied)"; the spec's
testable property `equals(attachDecorator(S, caseFold), "ABC")` for
S = "ABC" forces the decorator chain to normalise both sides, so the
expected value runs through the same chain as the actual value. -/
def StringValue.IsEqualTo (s : StringValue) (expected : GoString) : Bool :=
  s.Value == applyDecorators s.decorators expected

/-- Modelled from the spec: emptiness is `size() == 0`. -/
def StringValue.IsEmpty (s : StringValue) : Bool := s.Value == []

/-- Modelled from the spec: non-emptiness is `size() > 0`. -/
def StringValue.IsNotEmpty (s : StringValue) : Bool := !s.IsEmpty

/-- Modelled from the spec: `size()` of a String-kind wrapper is its
"count of characters (not bytes)", taken on the materialized value. -/
def StringValue.Size (s : StringValue) : Nat := s.Value.length

/-- Modelled from the spec: containment is substring search, exact case. -/
def StringValue.Contains (s : StringValue) (sub : GoString) : Bool :=
  occCount s.Value sub != 0

/-- Modelled from the spec: negation of containment. -/
def StringValue.DoesNotContain (s : StringValue) (sub : GoString) : Bool :=
  !s.Contains sub

/-- Modelled from the spec: case-insensitive substring search performing
its own internal normalization. -/
def StringValue.ContainsIgnoringCase (s : StringValue) (sub : GoString) : Bool :=
  occCount (goToLower s.Value) (goToLower sub) != 0

/-- Modelled from the spec: "all elements of actual are drawn from the
expected set ... this is a subset check". -/
def StringValue.ContainsOnly (s : StringValue) (sub : GoString) : Bool :=
  s.Value.all (fun c => sub.contains c)

/-- Modelled from the spec: "the expected substring appears in actual
exactly one time — zero or two-or-more occurrences both fail". -/
def StringValue.ContainsOnlyOnce (s : StringValue) (sub : GoString) : Bool :=
  occCount s.Value sub == 1

/-- Modelled from the spec: at least one whitespace character present. -/
def StringValue.ContainsWhitespaces (s : StringValue) : Bool :=
  s.Value.any goIsSpace

/-- Modelled from the spec: prefix character-sequence match. -/
def StringValue.StartsWith (s : StringValue) (sub : GoString) : Bool :=
  sub.isPrefixOf s.Value

/-- Modelled from the spec: suffix character-sequence match. -/
def StringValue.EndsWith (s : StringValue) (sub : GoString) : Bool :=
  sub.isSuffixOf s.Value

/-- Modelled from the spec: every character in the materialized string is
a decimal digit. -/
def StringValue.HasDigitsOnly (s : StringValue) : Bool :=
  s.Value.all Char.isDigit

/-- Modelled from the spec: every cased character is lower case;
characters without case do not affect the verdict. -/
def StringValue.IsLowerCase (s : StringValue) : Bool :=
  s.Value.all (fun c => !c.isAlpha || c.isLower)

/-- Modelled from the spec: every cased character is upper case;
characters without case do not affect the verdict. -/
def StringValue.IsUpperCase (s : StringValue) : Bool :=
  s.Value.all (fun c => !c.isAlpha || c.isUpper)

/-- A Go `time.Time`: an instant (nanoseconds since the epoch) together
with a representation component (the location's UTC offset in minutes),
which affects how the value prints but not which instant it denotes. -/
structure GoTime where
  instant : Int
  offsetMinutes : Int
deriving DecidableEq

/-- Embeds `types.TimeValue`: the wrapped actual `time.Time`. -/
structure TimeValue where
  value : GoTime
deriving DecidableEq

/-- Embeds `types.NewTimeValue`. -/
def NewTimeValue (t : GoTime) : TimeValue := ⟨t⟩

/-- Modelled from the spec: time equality is "same instant (not same
representation/timezone)". -/
def TimeValue.IsSameAs (a : TimeValue) (expected : GoTime) : Bool :=
  a.value.instant == expected.instant

/-- Modelled from the spec: negation of same-instant equality. -/
def TimeValue.IsNotSameAs (a : TimeValue) (expected : GoTime) : Bool :=
  !a.IsSameAs expected

/-- Modelled from the spec: chronological order, strict — "before"
excludes equal. -/
def TimeValue.IsBefore (a : TimeValue) (expected : GoTime) : Bool :=
  a.value.instant < expected.instant

/-- Modelled from the spec: strict chronological "after". -/
def TimeValue.IsAfter (a : TimeValue) (expected : GoTime) : Bool :=
  expected.instant < a.value.instant

/-- Rendering of a `time.Time` by `%+v` in a diagnostic, abstracted as an
injective textual form of the instant and offset. -/
def renderTime (t : GoTime) : GoString :=
  (toString t.instant).toList ++ " @".toList ++ (toString t.offsetMinutes).toList

/-! ### Diagnostic formatters (errors.go)

Each formatter takes the `%+v`/`%v`-rendered argument strings (for a
string-kind wrapper `actual.Value()` renders as the materialized string
itself) and returns the one diagnostic line, with the template text taken
verbatim from the source. -/

def shouldBeEqual (a e : GoString) : GoString :=
  "assertion failed: expected value of = ".toList ++ (a ++ (", to be equal to ".toList ++ (e)))

def shouldNotBeEqual (a e : GoString) : GoString :=
  "assertion failed: expected value of = ".toList ++ (a ++ (", to be other than ".toList ++ (e)))

def shouldBeGreater (a e : GoString) : GoString :=
  "assertion failed: expected value of = ".toList ++ (a ++ (", to be greater than ".toList ++ (e)))

def shouldBeGreaterOrEqual (a e : GoString) : GoString :=
  "assertion failed: expected value of = ".toList ++ (a ++ (", to be greater than or equal to ".toList ++ (e)))

def shouldBeLessThan (a e : GoString) : GoString :=
  "assertion failed: expected value of = ".toList ++ (a ++ (", to be less than ".toList ++ (e)))

def shouldBeLessOrEqual (a e : GoString) : GoString :=
  "assertion failed: expected value of = ".toList ++ (a ++ (", to be less than or equal to ".toList ++ (e)))

def shouldBeEmpty (a : GoString) : GoString :=
  "assertion failed: expected ".toList ++ (a ++ (" to be empty, but it's not".toList))

def shouldNotBeEmpty (a : GoString) : GoString :=
  "assertion failed: expected ".toList ++ (a ++ (" not to be empty, but it is".toList))

def shouldBeNil (a : GoString) : GoString :=
  "assertion failed: expected value of = ".toList ++ (a ++ (", to be nil but it wasn't".toList))

def shouldNotBeNil (a : GoString) : GoString :=
  "assertion failed: expected value of = ".toList ++ (a ++ (", to be non-nil but it was".toList))

def shouldHaveSize (sz expected : Nat) : GoString :=
  "assertion failed: expected size of = [".toList ++ ((toString sz).toList ++ ("], to be but it has size of [".toList ++ ((toString expected).toList ++ ("] ".toList))))

def shouldContain (a e : GoString) : GoString :=
  "assertion failed: containable [".toList ++ (a ++ ("] should contain [".toList ++ (e ++ ("], but it doesn't".toList))))

def shouldContainIgnoringCase (a e : GoString) : GoString :=
  "assertion failed: containable [".toList ++ (a ++ ("] should contain [".toList ++ (e ++ ("] ignoring case, but it doesn't".toList))))

def shouldContainOnly (a e : GoString) : GoString :=
  "assertion failed: containable [".toList ++ (a ++ ("] should contain only [".toList ++ (e ++ ("], but it doesn't".toList))))

def shouldContainOnlyOnce (a e : GoString) : GoString :=
  "assertion failed: containable [".toList ++ (a ++ ("] should contain [".toList ++ (e ++ ("] only once, but it doesn't".toList))))

def shouldNotContain (a e : GoString) : GoString :=
  "assertion failed: containable [".toList ++ (a ++ ("] should not contain [".toList ++ (e ++ ("], but it does".toList))))

def shouldBeMap (kind : GoString) : GoString :=
  "assertion failed: assertable should be a map but it is ".toList ++ (kind)

def shouldHaveKey (a e : GoString) : GoString :=
  "assertion failed: map [".toList ++ (a ++ ("] should have the key [".toList ++ (e ++ ("], but it doesn't".toList))))

def shouldHaveValue (a e : GoString) : GoString :=
  "assertion failed: map [".toList ++ (a ++ ("] should have the value [".toList ++ (e ++ ("], but it doesn't".toList))))

def shouldHaveEntry (a entry : GoString) : GoString :=
  "assertion failed: map [".toList ++ (a ++ ("] should have the entry [".toList ++ (entry ++ ("], but it doesn't".toList))))

def shouldNotHaveKey (a e : GoString) : GoString :=
  "assertion failed: map [".toList ++ (a ++ ("] should not have the key [".toList ++ (e ++ ("], but it does".toList))))

def shouldNotHaveValue (a e : GoString) : GoString :=
  "assertion failed: map [".toList ++ (a ++ ("] should not have the value [".toList ++ (e ++ ("], but it does".toList))))

def shouldNotHaveEntry (a entry : GoString) : GoString :=
  "assertion failed: map [".toList ++ (a ++ ("] should not have the entry [".toList ++ (entry ++ ("], but it does".toList))))

def shouldStartWith (a sub : GoString) : GoString :=
  "assertion failed: expected value of [".toList ++ (a ++ ("] to start with [".toList ++ (sub ++ ("], but it doesn't".toList))))

def shouldEndWith (a sub : GoString) : GoString :=
  "assertion failed: expected value of [".toList ++ (a ++ ("] to end with [".toList ++ (sub ++ ("], but it doesn't".toList))))

def shouldHaveSameSizeAs (a sub : GoString) : GoString :=
  "assertion failed: expected size of [".toList ++ (a ++ ("] should be same as the size of [".toList ++ (sub ++ ("], but it isn't".toList))))

def shouldBeShorter (a e : GoString) : GoString :=
  "assertion failed: expected value of = ".toList ++ (a ++ (", to be greater than ".toList ++ (e)))

def shouldBeLonger (a e : GoString) : GoString :=
  "assertion failed: expected value of = ".toList ++ (a ++ (", to be longer than ".toList ++ (e)))

def shouldContainOnlyDigits (a : GoString) : GoString :=
  "assertion failed: expected ".toList ++ (a ++ (" to have only digits, but it's not".toList))

/-- Modelled from the spec: the `shouldBeLowerCase` formatter is called by
`string.go` but absent from the given formatter sources; one fixed line
naming the lower-case relation and the post-decorator actual value. -/
def shouldBeLowerCase (a : GoString) : GoString :=
  "assertion failed: expected ".toList ++ (a ++ (" to be lower case, but it is not".toList))

/-- Modelled from the spec: the `shouldBeUpperCase` formatter is called by
`string.go` but absent from the given formatter sources. -/
def shouldBeUpperCase (a : GoString) : GoString :=
  "assertion failed: expected ".toList ++ (a ++ (" to be upper case, but it is not".toList))

/-- Modelled from the spec: the `shouldContainWhiteSpace` formatter is
called by `string.go` but absent from the given formatter sources. -/
def shouldContainWhiteSpace (a : GoString) : GoString :=
  "assertion failed: expected ".toList ++ (a ++ (" to contain at least one whitespace, but it doesn't".toList))

/-- Modelled from the spec: the `shouldNotContainAnyWhiteSpace` formatter
is called by `string.go` but absent from the given formatter sources. -/
def shouldNotContainAnyWhiteSpace (a : GoString) : GoString :=
  "assertion failed: expected ".toList ++ (a ++ (" to contain no whitespace, but it does".toList))

/-- Modelled from the spec: the `shouldNotStartWith` formatter is called
by `string.go` but absent from the given formatter sources. -/
def shouldNotStartWith (a sub : GoString) : GoString :=
  "assertion failed: expected value of [".toList ++ (a ++ ("] not to start with [".toList ++ (sub ++ ("], but it does".toList))))

/-- Modelled from the spec: the `shouldNotEndWith` formatter is called by
`string.go` but absent from the given formatter sources. -/
def shouldNotEndWith (a sub : GoString) : GoString :=
  "assertion failed: expected value of [".toList ++ (a ++ ("] not to end with [".toList ++ (sub ++ ("], but it does".toList))))

/-! ### The assertion facade (assert/string.go, assert/time.go)

`*testing.T` is embedded as the list of messages reported so far;
`t.Error m` appends `m` and continues. -/

/-- The state of the borrowed `*testing.T`: the failure messages reported
so far, in report order. -/
abbrev TLog := List GoString

/-- Embeds `t.Error`: records one failure message and allows execution to continue. -/
def tError (log : TLog) (msg : GoString) : TLog := log ++ [msg]

/-- Embeds `AssertableString` (the `t` field is externalized into the `TLog`
threaded through each method). -/
structure AssertableString where
  actual : StringValue

/-- Embeds `StringOpt`: a configuration option mutating the assertable under
construction. -/
abbrev StringOpt := AssertableString → AssertableString

/-- Embeds `IgnoringCase`: sets the underlying value to lower case. -/
def IgnoringCase : StringOpt :=
  fun c => ⟨c.actual.AddDecorator goToLower⟩

/-- Embeds `IgnoringWhiteSpaces`: removes the whitespaces from the value under
assertion. -/
def IgnoringWhiteSpaces : StringOpt :=
  fun c => ⟨c.actual.AddDecorator RemoveSpaces⟩

/-- Embeds `ThatString`: wraps the actual value and applies the options in order,
skipping `nil` (`none`) entries. -/
def ThatString (actual : GoString) (opts : List (Option StringOpt)) : AssertableString :=
  opts.foldl (fun a o => match o with | some opt => opt a | none => a)
    ⟨NewStringValue actual⟩

def AssertableString.IsEqualTo (a : AssertableString) (log : TLog) (expected : GoString) :
    AssertableString × TLog :=
  if !a.actual.IsEqualTo expected then (a, tError log (shouldBeEqual a.actual.Value expected))
  else (a, log)

def AssertableString.IsNotEqualTo (a : AssertableString) (log : TLog) (expected : GoString) :
    AssertableString × TLog :=
  if a.actual.IsEqualTo expected then (a, tError log (shouldNotBeEqual a.actual.Value expected))
  else (a, log)

def AssertableString.IsEmpty (a : AssertableString) (log : TLog) :
    AssertableString × TLog :=
  if a.actual.IsNotEmpty then (a, tError log (shouldBeEmpty a.actual.Value))
  else (a, log)

def AssertableString.IsLowerCase (a : AssertableString) (log : TLog) :
    AssertableString × TLog :=
  if !a.actual.IsLowerCase then (a, tError log (shouldBeLowerCase a.actual.Value))
  else (a, log)

def AssertableString.IsUpperCase (a : AssertableString) (log : TLog) :
    AssertableString × TLog :=
  if !a.actual.IsUpperCase then (a, tError log (shouldBeUpperCase a.actual.Value))
  else (a, log)

def AssertableString.IsNotEmpty (a : AssertableString) (log : TLog) :
    AssertableString × TLog :=
  if a.actual.IsEmpty then (a, tError log (shouldNotBeEmpty a.actual.Value))
  else (a, log)

def AssertableString.Contains (a : AssertableString) (log : TLog) (substring : GoString) :
    AssertableString × TLog :=
  if a.actual.DoesNotContain substring then (a, tError log (shouldContain a.actual.Value substring))
  else (a, log)

def AssertableString.ContainsIgnoringCase (a : AssertableString) (log : TLog) (substring : GoString) :
    AssertableString × TLog :=
  if !a.actual.ContainsIgnoringCase substring then
    (a, tError log (shouldContainIgnoringCase a.actual.Value substring))
  else (a, log)

def AssertableString.ContainsOnly (a : AssertableString) (log : TLog) (substring : GoString) :
    AssertableString × TLog :=
  if !a.actual.ContainsOnly substring then
    (a, tError log (shouldContainOnly a.actual.Value substring))
  else (a, log)

def AssertableString.ContainsOnlyOnce (a : AssertableString) (log : TLog) (substring : GoString) :
    AssertableString × TLog :=
  if !a.actual.ContainsOnlyOnce substring then
    (a, tError log (shouldContainOnlyOnce a.actual.Value substring))
  else (a, log)

def AssertableString.ContainsWhitespaces (a : AssertableString) (log : TLog) :
    AssertableString × TLog :=
  if !a.actual.ContainsWhitespaces then (a, tError log (shouldContainWhiteSpace a.actual.Value))
  else (a, log)

def AssertableString.DoesNotContainAnyWhitespaces (a : AssertableString) (log : TLog) :
    AssertableString × TLog :=
  if a.actual.ContainsWhitespaces then
    (a, tError log (shouldNotContainAnyWhiteSpace a.actual.Value))
  else (a, log)

def AssertableString.DoesNotContain (a : AssertableString) (log : TLog) (substring : GoString) :
    AssertableString × TLog :=
  if a.actual.Contains substring then (a, tError log (shouldNotContain a.actual.Value substring))
  else (a, log)

def AssertableString.StartsWith (a : AssertableString) (log : TLog) (substring : GoString) :
    AssertableString × TLog :=
  if !a.actual.StartsWith substring then (a, tError log (shouldStartWith a.actual.Value substring))
  else (a, log)

def AssertableString.DoesNotStartWith (a : AssertableString) (log : TLog) (substring : GoString) :
    AssertableString × TLog :=
  if a.actual.StartsWith substring then
    (a, tError log (shouldNotStartWith a.actual.Value substring))
  else (a, log)

def AssertableString.EndsWith (a : AssertableString) (log : TLog) (substring : GoString) :
    AssertableString × TLog :=
  if !a.actual.EndsWith substring then (a, tError log (shouldEndWith a.actual.Value substring))
  else (a, log)

def AssertableString.DoesNotEndWith (a : AssertableString) (log : TLog) (substring : GoString) :
    AssertableString × TLog :=
  if a.actual.EndsWith substring then (a, tError log (shouldNotEndWith a.actual.Value substring))
  else (a, log)

def AssertableString.HasSameSizeAs (a : AssertableString) (log : TLog) (substring : GoString) :
    AssertableString × TLog :=
  if !(a.actual.Size == goLen substring) then
    (a, tError log (shouldHaveSameSizeAs a.actual.Value substring))
  else (a, log)

def AssertableString.ContainsOnlyDigits (a : AssertableString) (log : TLog) :
    AssertableString × TLog :=
  if !a.actual.HasDigitsOnly then (a, tError log (shouldContainOnlyDigits a.actual.Value))
  else (a, log)

/-- Embeds `AssertableTime` (the `t` field is externalized into the `TLog`). -/
structure AssertableTime where
  actual : TimeValue

/-- Embeds `ThatTime`: wraps the actual `time.Time`. -/
def ThatTime (actual : GoTime) : AssertableTime :=
  ⟨NewTimeValue actual⟩

def AssertableTime.IsSameAs (a : AssertableTime) (log : TLog) (expected : GoTime) :
    AssertableTime × TLog :=
  if a.actual.IsNotSameAs expected then
    (a, tError log (shouldBeEqual (renderTime a.actual.value) (renderTime expected)))
  else (a, log)

def AssertableTime.IsNotTheSameAs (a : AssertableTime) (log : TLog) (expected : GoTime) :
    AssertableTime × TLog :=
  if a.actual.IsSameAs expected then
    (a, tError log (shouldNotBeEqual (renderTime a.actual.value) (renderTime expected)))
  else (a, log)

def AssertableTime.IsBefore (a : AssertableTime) (log : TLog) (expected : GoTime) :
    AssertableTime × TLog :=
  if !a.actual.IsBefore expected then
    (a, tError log (shouldBeGreater (renderTime a.actual.value) (renderTime expected)))
  else (a, log)

def AssertableTime.IsAfter (a : AssertableTime) (log : TLog) (expected : GoTime) :
    AssertableTime × TLog :=
  if !a.actual.IsAfter expected then
    (a, tError log (shouldBeGreaterOrEqual (renderTime a.actual.value) (renderTime expected)))
  else (a, log)

/-! ### Assertion chains

One fluent chain on a wrapper is a list of method invocations, executed
left to right with the `*testing.T` log threaded through. -/

/-- One assertion-method invocation on an `AssertableString`. -/
inductive StrCall where
  | isEqualTo (e : GoString)
  | isNotEqualTo (e : GoString)
  | isEmpty
  | isLowerCase
  | isUpperCase
  | isNotEmpty
  | contains (sub : GoString)
  | containsIgnoringCase (sub : GoString)
  | containsOnly (sub : GoString)
  | containsOnlyOnce (sub : GoString)
  | containsWhitespaces
  | doesNotContainAnyWhitespaces
  | doesNotContain (sub : GoString)
  | startsWith (sub : GoString)
  | doesNotStartWith (sub : GoString)
  | endsWith (sub : GoString)
  | doesNotEndWith (sub : GoString)
  | hasSameSizeAs (sub : GoString)
  | containsOnlyDigits

/-- Dispatches one invocation to the corresponding facade method. -/
def runStrCall (c : StrCall) (a : AssertableString) (log : TLog) : AssertableString × TLog :=
  match c with
  | .isEqualTo e => a.IsEqualTo log e
  | .isNotEqualTo e => a.IsNotEqualTo log e
  | .isEmpty => a.IsEmpty log
  | .isLowerCase => a.IsLowerCase log
  | .isUpperCase => a.IsUpperCase log
  | .isNotEmpty => a.IsNotEmpty log
  | .contains sub => a.Contains log sub
  | .containsIgnoringCase sub => a.ContainsIgnoringCase log sub
  | .containsOnly sub => a.ContainsOnly log sub
  | .containsOnlyOnce sub => a.ContainsOnlyOnce log sub
  | .containsWhitespaces => a.ContainsWhitespaces log
  | .doesNotContainAnyWhitespaces => a.DoesNotContainAnyWhitespaces log
  | .doesNotContain sub => a.DoesNotContain log sub
  | .startsWith sub => a.StartsWith log sub
  | .doesNotStartWith sub => a.DoesNotStartWith log sub
  | .endsWith sub => a.EndsWith log sub
  | .doesNotEndWith sub => a.DoesNotEndWith log sub
  | .hasSameSizeAs sub => a.HasSameSizeAs log sub
  | .containsOnlyDigits => a.ContainsOnlyDigits log

/-- Whether an invocation's predicate fails on the given wrapper. -/
def strCallFails (a : AssertableString) : StrCall → Bool
  | .isEqualTo e => !a.actual.IsEqualTo e
  | .isNotEqualTo e => a.actual.IsEqualTo e
  | .isEmpty => a.actual.IsNotEmpty
  | .isLowerCase => !a.actual.IsLowerCase
  | .isUpperCase => !a.actual.IsUpperCase
  | .isNotEmpty => a.actual.IsEmpty
  | .contains sub => a.actual.DoesNotContain sub
  | .containsIgnoringCase sub => !a.actual.ContainsIgnoringCase sub
  | .containsOnly sub => !a.actual.ContainsOnly sub
  | .containsOnlyOnce sub => !a.actual.ContainsOnlyOnce sub
  | .containsWhitespaces => !a.actual.ContainsWhitespaces
  | .doesNotContainAnyWhitespaces => a.actual.ContainsWhitespaces
  | .doesNotContain sub => a.actual.Contains sub
  | .startsWith sub => !a.actual.StartsWith sub
  | .doesNotStartWith sub => a.actual.StartsWith sub
  | .endsWith sub => !a.actual.EndsWith sub
  | .doesNotEndWith sub => a.actual.EndsWith sub
  | .hasSameSizeAs sub => !(a.actual.Size == goLen sub)
  | .containsOnlyDigits => !a.actual.HasDigitsOnly

/-- The diagnostic line an invocation reports when its predicate fails. -/
def strCallMsg (a : AssertableString) : StrCall → GoString
  | .isEqualTo e => shouldBeEqual a.actual.Value e
  | .isNotEqualTo e => shouldNotBeEqual a.actual.Value e
  | .isEmpty => shouldBeEmpty a.actual.Value
  | .isLowerCase => shouldBeLowerCase a.actual.Value
  | .isUpperCase => shouldBeUpperCase a.actual.Value
  | .isNotEmpty => shouldNotBeEmpty a.actual.Value
  | .contains sub => shouldContain a.actual.Value sub
  | .containsIgnoringCase sub => shouldContainIgnoringCase a.actual.Value sub
  | .containsOnly sub => shouldContainOnly a.actual.Value sub
  | .containsOnlyOnce sub => shouldContainOnlyOnce a.actual.Value sub
  | .containsWhitespaces => shouldContainWhiteSpace a.actual.Value
  | .doesNotContainAnyWhitespaces => shouldNotContainAnyWhiteSpace a.actual.Value
  | .doesNotContain sub => shouldNotContain a.actual.Value sub
  | .startsWith sub => shouldStartWith a.actual.Value sub
  | .doesNotStartWith sub => shouldNotStartWith a.actual.Value sub
  | .endsWith sub => shouldEndWith a.actual.Value sub
  | .doesNotEndWith sub => shouldNotEndWith a.actual.Value sub
  | .hasSameSizeAs sub => shouldHaveSameSizeAs a.actual.Value sub
  | .containsOnlyDigits => shouldContainOnlyDigits a.actual.Value

/-- Runs a chain of string assertions left to right. -/
def runStrChain (calls : List StrCall) (a : AssertableString) (log : TLog) :
    AssertableString × TLog :=
  match calls with
  | [] => (a, log)
  | c :: cs => runStrChain cs (runStrCall c a log).1 (runStrCall c a log).2

/-- One assertion-method invocation on an `AssertableTime`. -/
inductive TimeCall where
  | isSameAs (e : GoTime)
  | isNotTheSameAs (e : GoTime)
  | isBefore (e : GoTime)
  | isAfter (e : GoTime)

/-- Dispatches one invocation to the corresponding facade method. -/
def runTimeCall (c : TimeCall) (a : AssertableTime) (log : TLog) : AssertableTime × TLog :=
  match c with
  | .isSameAs e => a.IsSameAs log e
  | .isNotTheSameAs e => a.IsNotTheSameAs log e
  | .isBefore e => a.IsBefore log e
  | .isAfter e => a.IsAfter log e

/-- Whether an invocation's predicate fails on the given wrapper. -/
def timeCallFails (a : AssertableTime) : TimeCall → Bool
  | .isSameAs e => a.actual.IsNotSameAs e
  | .isNotTheSameAs e => a.actual.IsSameAs e
  | .isBefore e => !a.actual.IsBefore e
  | .isAfter e => !a.actual.IsAfter e

/-- The diagnostic line an invocation reports when its predicate fails. -/
def timeCallMsg (a : AssertableTime) : TimeCall → GoString
  | .isSameAs e => shouldBeEqual (renderTime a.actual.value) (renderTime e)
  | .isNotTheSameAs e => shouldNotBeEqual (renderTime a.actual.value) (renderTime e)
  | .isBefore e => shouldBeGreater (renderTime a.actual.value) (renderTime e)
  | .isAfter e => shouldBeGreaterOrEqual (renderTime a.actual.value) (renderTime e)

/-- Runs a chain of time assertions left to right. -/
def runTimeChain (calls : List TimeCall) (a : AssertableTime) (log : TLog) :
    AssertableTime × TLog :=
  match calls with
  | [] => (a, log)
  | c :: cs => runTimeChain cs (runTimeCall c a log).1 (runTimeCall c a log).2

/-! ### Helper lemmas -/

theorem report_if {α : Type} (a : α) (log : TLog) (b : Bool) (m : GoString) :
    (if b then (a, tError log m) else (a, log)) = (a, log ++ if b then [m] else []) := by
  cases b <;> simp [tError]

theorem runStrCall_eq (c : StrCall) (a : AssertableString) (log : TLog) :
    runStrCall c a log = (a, log ++ if strCallFails a c then [strCallMsg a c] else []) := by
  cases c <;>
    simp only [runStrCall, AssertableString.IsEqualTo, AssertableString.IsNotEqualTo,
      AssertableString.IsEmpty, AssertableString.IsLowerCase, AssertableString.IsUpperCase,
      AssertableString.IsNotEmpty, AssertableString.Contains,
      AssertableString.ContainsIgnoringCase, AssertableString.ContainsOnly,
      AssertableString.ContainsOnlyOnce, AssertableString.ContainsWhitespaces,
      AssertableString.DoesNotContainAnyWhitespaces, AssertableString.DoesNotContain,
      AssertableString.StartsWith, AssertableString.DoesNotStartWith,
      AssertableString.EndsWith, AssertableString.DoesNotEndWith,
      AssertableString.HasSameSizeAs, AssertableString.ContainsOnlyDigits,
      strCallFails, strCallMsg] <;>
    exact report_if ..

theorem runTimeCall_eq (c : TimeCall) (a : AssertableTime) (log : TLog) :
    runTimeCall c a log = (a, log ++ if timeCallFails a c then [timeCallMsg a c] else []) := by
  cases c <;>
    simp only [runTimeCall, AssertableTime.IsSameAs, AssertableTime.IsNotTheSameAs,
      AssertableTime.IsBefore, AssertableTime.IsAfter, timeCallFails, timeCallMsg] <;>
    exact report_if ..

theorem runStrChain_log (calls : List StrCall) :
    ∀ (a : AssertableString) (log : TLog),
      runStrChain calls a log =
        (a, log ++ calls.filterMap
              (fun c => if strCallFails a c then some (strCallMsg a c) else none)) := by
  induction calls with
  | nil => intro a log; simp [runStrChain]
  | cons c cs ih =>
    intro a log
    rw [show runStrChain (c :: cs) a log
          = runStrChain cs (runStrCall c a log).1 (runStrCall c a log).2 from rfl,
        runStrCall_eq, ih]
    by_cases hb : strCallFails a c = true <;>
      simp [hb, List.filterMap_cons, List.append_assoc]

theorem runTimeChain_log (calls : List TimeCall) :
    ∀ (a : AssertableTime) (log : TLog),
      runTimeChain calls a log =
        (a, log ++ calls.filterMap
              (fun c => if timeCallFails a c then some (timeCallMsg a c) else none)) := by
  induction calls with
  | nil => intro a log; simp [runTimeChain]
  | cons c cs ih =>
    intro a log
    rw [show runTimeChain (c :: cs) a log
          = runTimeChain cs (runTimeCall c a log).1 (runTimeCall c a log).2 from rfl,
        runTimeCall_eq, ih]
    by_cases hb : timeCallFails a c = true <;>
      simp [hb, List.filterMap_cons, List.append_assoc]

theorem occCount_eq_countP (sub : GoString) :
    ∀ s : GoString,
      occCount s sub
        = (List.range (s.length + 1)).countP (fun i => sub.isPrefixOf (s.drop i)) := by
  intro s
  induction s with
  | nil =>
    rw [show List.range (([] : GoString).length + 1) = [0] from rfl, List.countP_singleton]
    rfl
  | cons c t ih =>
    rw [show occCount (c :: t) sub
          = (if sub.isPrefixOf (c :: t) then 1 else 0) + occCount t sub from rfl]
    rw [show (c :: t).length + 1 = t.length + 1 + 1 from rfl, List.range_succ_eq_map,
      List.countP_cons, List.countP_map]
    rw [show ((fun i => sub.isPrefixOf ((c :: t).drop i)) ∘ Nat.succ)
          = (fun i => sub.isPrefixOf (t.drop i)) from rfl, ← ih]
    exact (Nat.add_comm _ _).symm

theorem nodup_all_eq_singleton {l : List Nat} {a : Nat} (hnd : l.Nodup) (hmem : a ∈ l)
    (hall : ∀ b ∈ l, b = a) : l = [a] := by
  cases l with
  | nil => cases hmem
  | cons b t =>
    have hb : b = a := hall b (List.mem_cons_self ..)
    subst hb
    cases t with
    | nil => rfl
    | cons x t' =>
      have hx : x = b := hall x (by simp)
      subst hx
      simp at hnd

theorem countP_range_eq_one {p : Nat → Bool} {n : Nat} :
    (List.range (n + 1)).countP p = 1 ↔ ∃! i, i ≤ n ∧ p i := by
  rw [List.countP_eq_length_filter, List.length_eq_one]
  constructor
  · rintro ⟨a, ha⟩
    have hmem : a ∈ (List.range (n + 1)).filter p := by
      rw [ha]; exact List.mem_singleton_self a
    rw [List.mem_filter, List.mem_range] at hmem
    refine ⟨a, ⟨Nat.lt_succ_iff.mp hmem.1, hmem.2⟩, ?_⟩
    intro b hb
    have hbm : b ∈ (List.range (n + 1)).filter p := by
      rw [List.mem_filter, List.mem_range]
      exact ⟨Nat.lt_succ_iff.mpr hb.1, hb.2⟩
    rw [ha] at hbm
    exact List.mem_singleton.mp hbm
  · rintro ⟨a, ⟨hale, hpa⟩, huniq⟩
    refine ⟨a, ?_⟩
    have hmem : a ∈ (List.range (n + 1)).filter p := by
      rw [List.mem_filter, List.mem_range]
      exact ⟨Nat.lt_succ_iff.mpr hale, hpa⟩
    have hall : ∀ b ∈ (List.range (n + 1)).filter p, b = a := by
      intro b hb
      rw [List.mem_filter, List.mem_range] at hb
      exact huniq b ⟨Nat.lt_succ_iff.mp hb.1, hb.2⟩
    exact nodup_all_eq_singleton ((List.nodup_range _).filter p) hmem hall

/-! ### Claim theorems -/

/-- C1: on either wrapper, every chain of assertion calls returns the
wrapper unchanged (so chaining continues even after a failure), and the
reported messages are exactly one diagnostic per failing predicate, in
call order, with zero messages for passing predicates. -/
theorem chain_returns_wrapper_and_reports_each_failure_once :
    (∀ (a : AssertableString) (log : TLog) (calls : List StrCall),
        runStrChain calls a log =
          (a, log ++ calls.filterMap
                (fun c => if strCallFails a c then some (strCallMsg a c) else none)))
    ∧ (∀ (a : AssertableTime) (log : TLog) (calls : List TimeCall),
        runTimeChain calls a log =
          (a, log ++ calls.filterMap
                (fun c => if timeCallFails a c then some (timeCallMsg a c) else none))) :=
  ⟨fun a log calls => runStrChain_log calls a log,
   fun a log calls => runTimeChain_log calls a log⟩

/-- C2: evaluation of the code at the failing input `IsBefore(t, t)` (and
`IsAfter(t, t)`): each failure produces exactly one line, fixed per
predicate, but `IsBefore`'s line is the "to be greater than" template —
the greater/later relation, not the chronologically-earlier one (the word
"before" never occurs in it) — and `IsAfter`'s line is the non-strict
"greater than or equal to" template, not a strict 'after' description. -/
theorem isBefore_isAfter_failure_message_wrong_relation :
    ((ThatTime ⟨0, 0⟩).IsBefore [] ⟨0, 0⟩).2
        = [shouldBeGreater (renderTime ⟨0, 0⟩) (renderTime ⟨0, 0⟩)]
      ∧ occCount (shouldBeGreater (renderTime ⟨0, 0⟩) (renderTime ⟨0, 0⟩))
          ", to be greater than ".toList = 1
      ∧ occCount (shouldBeGreater (renderTime ⟨0, 0⟩) (renderTime ⟨0, 0⟩))
          "before".toList = 0
      ∧ ((ThatTime ⟨0, 0⟩).IsAfter [] ⟨0, 0⟩).2
          = [shouldBeGreaterOrEqual (renderTime ⟨0, 0⟩) (renderTime ⟨0, 0⟩)]
      ∧ occCount (shouldBeGreaterOrEqual (renderTime ⟨0, 0⟩) (renderTime ⟨0, 0⟩))
          ", to be greater than or equal to ".toList = 1 := by
  decide

/-- C3 (counterexample): with actual `"ab"` and expected `"é"`,
`HasSameSizeAs` reports no failure (the code compares the actual's size
with Go's byte-length `len` of the expected, which is 2), yet the
character counts 2 and 1 differ — so "no failure iff equal character
counts" is false as stated. -/
theorem hasSameSizeAs_char_count_counterexample :
    ¬ ((((ThatString "ab".toList []).HasSameSizeAs [] "é".toList).2 = ([] : TLog))
        ↔ (ThatString "ab".toList []).actual.Size = ("é".toList).length) := by
  decide

/-- C3 (amended): `HasSameSizeAs` reports no failure iff the character
count of the post-decorator actual equals the UTF-8 byte length of the
expected string; when every character of the expected string is ASCII
this coincides with its character count. -/
theorem hasSameSizeAs_iff_byte_length :
    (∀ (a : AssertableString) (log : TLog) (sub : GoString),
        (a.HasSameSizeAs log sub).2 = log ↔ a.actual.Size = goLen sub)
    ∧ (∀ sub : GoString, (∀ c ∈ sub, c.toNat ≤ 127) → goLen sub = sub.length) := by
  constructor
  · intro a log sub
    by_cases h : a.actual.Size = goLen sub
    · simp [AssertableString.HasSameSizeAs, h, tError]
    · simp [AssertableString.HasSameSizeAs, h, tError]
  · intro sub h
    induction sub with
    | nil => rfl
    | cons c t ih =>
      have hc : c.utf8Size = 1 := by
        unfold Char.utf8Size
        rw [if_pos]
        show c.val ≤ 127
        rw [UInt32.le_def]
        simpa [Char.toNat] using h c (by simp)
      have ht : goLen t = t.length := ih (fun x hx => h x (by simp [hx]))
      simp [goLen, hc] at ht ⊢
      omega

/-- C3 (amended, witness): instantiation at the ASCII string `"xyz"`. -/
theorem hasSameSizeAs_iff_byte_length_witness :
    goLen "xyz".toList = ("xyz".toList).length :=
  hasSameSizeAs_iff_byte_length.2 "xyz".toList (by decide)

/-- C4: under the `IgnoringCase` decorator, `IsEqualTo "ABC"` reports no
failure for each of the actual values `"abc"`, `"ABC"`, `"aBc"`. -/
theorem ignoringCase_isEqualTo_ABC :
    ((ThatString "abc".toList [some IgnoringCase]).IsEqualTo [] "ABC".toList).2 = ([] : TLog)
    ∧ ((ThatString "ABC".toList [some IgnoringCase]).IsEqualTo [] "ABC".toList).2 = ([] : TLog)
    ∧ ((ThatString "aBc".toList [some IgnoringCase]).IsEqualTo [] "ABC".toList).2
        = ([] : TLog) := by
  decide

/-- C5: a newly attached decorator is applied after all previously
attached ones (attachment order is application order), attaching
case-fold then whitespace-removal to `"A B"` materializes to `"ab"`, and
the constructor accepts zero, one, or both decorators in either order. -/
theorem decorator_order_and_composition :
    (∀ (s : StringValue) (d : GoString → GoString), (s.AddDecorator d).Value = d s.Value)
    ∧ (ThatString "A B".toList [some IgnoringCase, some IgnoringWhiteSpaces]).actual.Value
        = "ab".toList
    ∧ (ThatString "A B".toList []).actual.Value = "A B".toList
    ∧ (ThatString "A B".toList [some IgnoringCase]).actual.Value = "a b".toList
    ∧ (ThatString "A B".toList [some IgnoringWhiteSpaces]).actual.Value = "AB".toList
    ∧ (ThatString "A B".toList [some IgnoringWhiteSpaces, some IgnoringCase]).actual.Value
        = "ab".toList := by
  refine ⟨fun s d => ?_, by decide, by decide, by decide, by decide, by decide⟩
  simp [StringValue.AddDecorator, StringValue.Value, applyDecorators, List.foldl_append]

/-- C6: `ContainsOnlyOnce` reports no failure iff there is exactly one
position of the materialized actual at which the substring occurs; in
particular `"aXbXc"`/`"X"` and `"abc"`/`"X"` fail while `"aXbc"`/`"X"`
passes. -/
theorem containsOnlyOnce_iff_unique_occurrence :
    (∀ (a : AssertableString) (log : TLog) (sub : GoString),
        (a.ContainsOnlyOnce log sub).2 = log
          ↔ ∃! i, i ≤ a.actual.Value.length ∧ sub <+: a.actual.Value.drop i)
    ∧ ((ThatString "aXbXc".toList []).ContainsOnlyOnce [] "X".toList).2 ≠ ([] : TLog)
    ∧ ((ThatString "aXbc".toList []).ContainsOnlyOnce [] "X".toList).2 = ([] : TLog)
    ∧ ((ThatString "abc".toList []).ContainsOnlyOnce [] "X".toList).2 ≠ ([] : TLog) := by
  refine ⟨fun a log sub => ?_, by decide, by decide, by decide⟩
  have hlog : (a.ContainsOnlyOnce log sub).2 = log ↔ occCount a.actual.Value sub = 1 := by
    by_cases h : occCount a.actual.Value sub = 1
    · simp [AssertableString.ContainsOnlyOnce, StringValue.ContainsOnlyOnce, h, tError]
    · simp [AssertableString.ContainsOnlyOnce, StringValue.ContainsOnlyOnce, h, tError]
  rw [hlog, occCount_eq_countP, countP_range_eq_one]
  simp only [List.isPrefixOf_iff_prefix]

/-- C7: for a chronologically earlier `t1`, `IsBefore(t1, t2)` reports no
failure while `IsAfter(t1, t2)` reports one; and `IsBefore(t, t)` reports
a failure — the order is strict and non-reflexive. -/
theorem time_ordering_strict_nonreflexive :
    (∀ (t1 t2 : GoTime) (log : TLog), t1.instant < t2.instant →
        ((ThatTime t1).IsBefore log t2).2 = log
          ∧ ((ThatTime t1).IsAfter log t2).2
              = log ++ [shouldBeGreaterOrEqual (renderTime t1) (renderTime t2)])
    ∧ (∀ (t : GoTime) (log : TLog),
        ((ThatTime t).IsBefore log t).2
          = log ++ [shouldBeGreater (renderTime t) (renderTime t)]) := by
  constructor
  · intro t1 t2 log h
    have h2 : ¬ t2.instant < t1.instant := by omega
    constructor
    · simp [AssertableTime.IsBefore, TimeValue.IsBefore, ThatTime, NewTimeValue, h]
    · simp [AssertableTime.IsAfter, TimeValue.IsAfter, ThatTime, NewTimeValue, h2, tError]
  · intro t log
    simp [AssertableTime.IsBefore, TimeValue.IsBefore, ThatTime, NewTimeValue, tError]

/-- C7 (witness): instantiation at the instants 0 and 1. -/
theorem time_ordering_strict_nonreflexive_witness :
    ((ThatTime ⟨0, 0⟩).IsBefore [] ⟨1, 0⟩).2 = ([] : TLog)
      ∧ ((ThatTime ⟨0, 0⟩).IsAfter [] ⟨1, 0⟩).2
          = [] ++ [shouldBeGreaterOrEqual (renderTime ⟨0, 0⟩) (renderTime ⟨1, 0⟩)] :=
  time_ordering_strict_nonreflexive.1 ⟨0, 0⟩ ⟨1, 0⟩ [] (by decide)

/-- C8: on two time values denoting the same instant (whatever their
representation component), `IsSameAs` reports no failure and
`IsNotTheSameAs` reports one. -/
theorem same_instant_equality :
    ∀ (t1 t2 : GoTime) (log : TLog), t1.instant = t2.instant →
      ((ThatTime t1).IsSameAs log t2).2 = log
        ∧ ((ThatTime t1).IsNotTheSameAs log t2).2
            = log ++ [shouldNotBeEqual (renderTime t1) (renderTime t2)] := by
  intro t1 t2 log h
  constructor
  · simp [AssertableTime.IsSameAs, TimeValue.IsNotSameAs, TimeValue.IsSameAs, ThatTime,
      NewTimeValue, h]
  · simp [AssertableTime.IsNotTheSameAs, TimeValue.IsSameAs, ThatTime, NewTimeValue, h, tError]

/-- C8 (witness): the same instant 0 expressed in two different
timezones (UTC offsets 0 and +120 minutes). -/
theorem same_instant_equality_witness :
    ((ThatTime ⟨0, 0⟩).IsSameAs [] ⟨0, 120⟩).2 = ([] : TLog)
      ∧ ((ThatTime ⟨0, 0⟩).IsNotTheSameAs [] ⟨0, 120⟩).2
          = [] ++ [shouldNotBeEqual (renderTime ⟨0, 0⟩) (renderTime ⟨0, 120⟩)] :=
  same_instant_equality ⟨0, 0⟩ ⟨0, 120⟩ [] rfl

theorem foldl_skip_none :
    ∀ (opts : List (Option StringOpt)) (a : AssertableString),
      opts.foldl (fun a o => match o with | some opt => opt a | none => a) a
        = (opts.filter (fun o => o.isSome)).foldl
            (fun a o => match o with | some opt => opt a | none => a) a := by
  intro opts
  induction opts with
  | nil => intro a; rfl
  | cons o t ih =>
    intro a
    cases o with
    | none => simpa [List.filter_cons] using ih a
    | some f => simpa [List.filter_cons] using ih (f a)

/-- C9: `ThatString` accepts `nil` options at any position (total, no
panic in the model) and skips them: the wrapper equals the one built from
the option list with the `nil` entries removed. -/
theorem thatString_skips_nil_options :
    ∀ (actual : GoString) (opts : List (Option StringOpt)),
      ThatString actual opts = ThatString actual (opts.filter (fun o => o.isSome)) :=
  fun actual opts => foldl_skip_none opts ⟨NewStringValue actual⟩

/-- The fixed prefix shared by every assertion diagnostic. -/
def failBanner : GoString := "assertion failed: ".toList

/-- Predicate: `m` starts with the fixed diagnostic prefix. -/
def startsWithBanner (m : GoString) : Prop := ∃ r, m = failBanner ++ r

theorem banner_append {lit : GoString} (h : failBanner <+: lit) (r : GoString) :
    startsWithBanner (lit ++ r) := by
  obtain ⟨t, ht⟩ := h
  exact ⟨t ++ r, by rw [← ht, List.append_assoc]⟩

/-- C10: every diagnostic string produced by the formatter helpers begins
with the fixed prefix "assertion failed: ", for every rendered actual and
expected/parameter value. -/
theorem formatter_outputs_begin_with_assertion_failed :
    (∀ a e, startsWithBanner (shouldBeEqual a e))
    ∧ (∀ a e, startsWithBanner (shouldNotBeEqual a e))
    ∧ (∀ a e, startsWithBanner (shouldBeGreater a e))
    ∧ (∀ a e, startsWithBanner (shouldBeGreaterOrEqual a e))
    ∧ (∀ a e, startsWithBanner (shouldBeLessThan a e))
    ∧ (∀ a e, startsWithBanner (shouldBeLessOrEqual a e))
    ∧ (∀ a, startsWithBanner (shouldBeEmpty a))
    ∧ (∀ a, startsWithBanner (shouldNotBeEmpty a))
    ∧ (∀ a, startsWithBanner (shouldBeNil a))
    ∧ (∀ a, startsWithBanner (shouldNotBeNil a))
    ∧ (∀ n m, startsWithBanner (shouldHaveSize n m))
    ∧ (∀ a e, startsWithBanner (shouldContain a e))
    ∧ (∀ a e, startsWithBanner (shouldContainIgnoringCase a e))
    ∧ (∀ a e, startsWithBanner (shouldContainOnly a e))
    ∧ (∀ a e, startsWithBanner (shouldContainOnlyOnce a e))
    ∧ (∀ a e, startsWithBanner (shouldNotContain a e))
    ∧ (∀ k, startsWithBanner (shouldBeMap k))
    ∧ (∀ a e, startsWithBanner (shouldHaveKey a e))
    ∧ (∀ a e, startsWithBanner (shouldHaveValue a e))
    ∧ (∀ a e, startsWithBanner (shouldHaveEntry a e))
    ∧ (∀ a e, startsWithBanner (shouldNotHaveKey a e))
    ∧ (∀ a e, startsWithBanner (shouldNotHaveValue a e))
    ∧ (∀ a e, startsWithBanner (shouldNotHaveEntry a e))
    ∧ (∀ a s, startsWithBanner (shouldStartWith a s))
    ∧ (∀ a s, startsWithBanner (shouldEndWith a s))
    ∧ (∀ a s, startsWithBanner (shouldHaveSameSizeAs a s))
    ∧ (∀ a e, startsWithBanner (shouldBeShorter a e))
    ∧ (∀ a e, startsWithBanner (shouldBeLonger a e))
    ∧ (∀ a, startsWithBanner (shouldContainOnlyDigits a)) :=
  ⟨fun _ _ => banner_append (by decide) _, fun _ _ => banner_append (by decide) _,
   fun _ _ => banner_append (by decide) _, fun _ _ => banner_append (by decide) _,
   fun _ _ => banner_append (by decide) _, fun _ _ => banner_append (by decide) _,
   fun _ => banner_append (by decide) _, fun _ => banner_append (by decide) _,
   fun _ => banner_append (by decide) _, fun _ => banner_append (by decide) _,
   fun _ _ => banner_append (by decide) _, fun _ _ => banner_append (by decide) _,
   fun _ _ => banner_append (by decide) _, fun _ _ => banner_append (by decide) _,
   fun _ _ => banner_append (by decide) _, fun _ _ => banner_append (by decide) _,
   fun _ => banner_append (by decide) _, fun _ _ => banner_append (by decide) _,
   fun _ _ => banner_append (by decide) _, fun _ _ => banner_append (by decide) _,
   fun _ _ => banner_append (by decide) _, fun _ _ => banner_append (by decide) _,
   fun _ _ => banner_append (by decide) _, fun _ _ => banner_append (by decide) _,
   fun _ _ => banner_append (by decide) _, fun _ _ => banner_append (by decide) _,
   fun _ _ => banner_append (by decide) _, fun _ _ => banner_append (by decide) _,
   fun _ => banner_append (by decide) _⟩

end GoTesting
